import Mathlib

/-!
Shallow embedding of `src/jira_pmo_status_report.py` (the report-synthesis
core): record data model, field accessors, root resolution, date
normalization and the report renderer, together with theorems settling the
specification claims about them.

Python strings are modelled by `String`; the Python string methods used by
the source (`lower`, `strip`, `replace`, `endswith`, `join`) are given
explicit executable models over the character list `String.data`, so that
concrete runs evaluate by `decide`.
-/

namespace PMO

/-- Models Python `str.lower()` (ASCII range, as exercised by the source). -/
def py_lower (s : String) : String :=
  String.mk (s.data.map Char.toLower)

/-- Python whitespace characters stripped by `str.strip()` with no argument. -/
def is_py_space (c : Char) : Bool :=
  c == ' ' || c == '\t' || c == '\n' || c == '\r' || c == '\x0b' || c == '\x0c'

/-- Models Python `str.strip()` (no argument): drop whitespace at both ends. -/
def py_strip (s : String) : String :=
  String.mk (((s.data.dropWhile is_py_space).reverse.dropWhile is_py_space).reverse)

/-- Models Python `str.strip(chars)`: drop characters of the set `cs` at both ends. -/
def py_strip_chars (cs : List Char) (s : String) : String :=
  String.mk (((s.data.dropWhile cs.contains).reverse.dropWhile cs.contains).reverse)

/-- Models Python `str.rstrip()`: drop whitespace at the right end. -/
def py_rstrip (s : String) : String :=
  String.mk ((s.data.reverse.dropWhile is_py_space).reverse)

/-- Worker for `py_replace`; `fuel` bounds the recursion by the input length. -/
def replace_go (p r : List Char) : Nat → List Char → List Char
  | _, [] => []
  | 0, l => l
  | fuel + 1, c :: cs =>
    if p.isPrefixOf (c :: cs) then r ++ replace_go p r fuel (List.drop (p.length - 1) cs)
    else c :: replace_go p r fuel cs

/-- Models Python `str.replace(pat, rep)` for a non-empty pattern:
replace every non-overlapping occurrence, scanning left to right. -/
def py_replace (s pat rep : String) : String :=
  if pat.data.isEmpty then s
  else String.mk (replace_go pat.data rep.data s.data.length s.data)

/-- Models Python `str.endswith(suffix)`. -/
def py_endswith (s suffix : String) : Bool :=
  suffix.data.isSuffixOf s.data

/-- Models Python `sep.join(parts)`. -/
def py_join (sep : String) : List String → String
  | [] => ""
  | [x] => x
  | x :: y :: rest => x ++ sep ++ py_join sep (y :: rest)

/-- Models the Python expression `a or b` for an optional string `a`
(`None` and `""` are falsy): the value of `a` when truthy, else `b`. -/
def or_falsy (a : Option String) (b : String) : String :=
  match a with
  | some s => if s = "" then b else s
  | none => b

/-- A structured Jira value (person/option/parent-like object) with the
string sub-attributes the source reads: `displayName`, `name`, `value`,
`id`, `key`. An absent sub-attribute is `none`. -/
structure StructObj where
  displayName : Option String := none
  name : Option String := none
  value : Option String := none
  id : Option String := none
  key : Option String := none
deriving DecidableEq

/-- The `statusCategory` sub-object of a status value (only `name` is read). -/
structure CatObj where
  name : Option String := none
deriving DecidableEq

/-- The `status` field value: primary `name` plus optional `statusCategory`. -/
structure StatusObj where
  name : Option String := none
  statusCategory : Option CatObj := none
deriving DecidableEq

/-- An element of a sequence-shaped field value: a structured object or a
scalar carried by its Python `str()` form. -/
inductive Elem where
  | obj (o : StructObj)
  | scalar (s : String)
deriving DecidableEq

/-- A field value as read by `field` / `field_text`: JSON null (also used
for an absent key, which Python's `dict.get` conflates with stored `None`),
a scalar (carried by its `str()` form), a structured object, or a sequence. -/
inductive FieldVal where
  | null
  | scalar (s : String)
  | obj (o : StructObj)
  | arr (elems : List Elem)
deriving DecidableEq

/-- A record (Jira issue): top-level `key` plus the `fields` mapping.
The `issuetype`, `status` and `parent` entries of the Python `fields` dict
are modelled as dedicated components since the source reads them through
dedicated accessors; the remaining entries form the generic `fields` map. -/
structure Issue where
  key : Option String := none
  issuetype : Option StructObj := none
  status : Option StatusObj := none
  parent : Option StructObj := none
  fields : List (String × FieldVal) := []
deriving DecidableEq

/-- The type-taxonomy / field-name configuration (`cfg` dict in `main`). -/
structure Cfg where
  WEEKLY_UPDATE_FIELD : String
  MILESTONE_TYPE_NAME : String
  MILESTONE_TARGET_END_FIELD : String
  MILESTONE_RAG_FIELD : String
  INITIATIVE_RISK_TYPE_NAME : String
  ASSUMPTION_TYPE_NAME : String
  ISSUE_TYPE_NAME : String
  DECISION_TYPE_NAME : String
  CHANGE_REQ_TYPE_NAME : String
  PROJECT_TYPE_NAME : String
  INITIATIVE_TYPE_NAME : String
  RISK_SCORE_FIELD : String

/-- First-match lookup in the (unique-keyed) Python `fields` dict. -/
def fields_lookup (fs : List (String × FieldVal)) (k : String) : Option FieldVal :=
  match fs.find? (fun p => p.1 == k) with
  | some p => some p.2
  | none => none

/-- `field(issue, key)`: look the key up verbatim, then lower-cased;
`FieldVal.null` models Python's `None` result (absent key or stored null). -/
def field (i : Issue) (k : String) : FieldVal :=
  match fields_lookup i.fields k with
  | some v => v
  | none =>
    match fields_lookup i.fields (py_lower k) with
    | some v => v
    | none => FieldVal.null

/-- `field_text(issue, key)`: canonical display string of a field value. -/
def field_text (i : Issue) (k : String) : String :=
  match field i k with
  | FieldVal.null => ""
  | FieldVal.obj o => or_falsy o.displayName (or_falsy o.name (or_falsy o.value (or_falsy o.id "")))
  | FieldVal.arr es =>
    let parts := es.map (fun e =>
      match e with
      | Elem.obj o => or_falsy o.name (or_falsy o.value (or_falsy o.displayName (or_falsy o.key "")))
      | Elem.scalar s => s)
    py_join ", " (parts.filter (fun p => p ≠ ""))
  | FieldVal.scalar s => s

/-- `issue_type(issue)`: trimmed name of the `issuetype` object, else `""`. -/
def issue_type (i : Issue) : String :=
  match i.issuetype with
  | some it => py_strip (or_falsy it.name "")
  | none => ""

/-- `issue_status_name(issue)`: trimmed status name, falling back to the
status-category name, else `""` (Python `or`-chain plus `strip`). -/
def issue_status_name (i : Issue) : String :=
  match i.status with
  | none => ""
  | some st =>
    py_strip (or_falsy st.name (or_falsy (match st.statusCategory with
      | some c => c.name
      | none => none) ""))

/-- `issue_key(issue)`: the record key, else `""`. -/
def issue_key (i : Issue) : String :=
  match i.key with
  | some k => k
  | none => ""

/-- `parent_key(issue)`: key of the `parent` object when it is a dict, else `""`. -/
def parent_key (i : Issue) : String :=
  match i.parent with
  | some p => or_falsy p.key ""
  | none => ""

/-- `is_open(issue)`: status (lower-cased) not in `{done, closed, resolved}`. -/
def is_open (i : Issue) : Bool :=
  let st := py_lower (issue_status_name i)
  !(st == "done" || st == "closed" || st == "resolved")

/-- The dict lookup `{issue_key(i): i for i in issues}[h]`: later entries
overwrite earlier ones, so this returns the last record with key `h`. -/
def by_key_lookup (issues : List Issue) (h : String) : Option Issue :=
  issues.foldl (fun acc i => if issue_key i = h then some i else acc) none

/-- `determine_root(issues, hint_key)`: hint match first, then the first
parentless record, then the first record; `none` only on empty input. -/
def determine_root (issues : List Issue) (hint_key : Option String) : Option Issue :=
  let hk := hint_key.getD ""
  if hk != "" && (by_key_lookup issues hk).isSome then
    by_key_lookup issues hk
  else
    match issues.find? (fun it => parent_key it == "") with
    | some it => some it
    | none => issues.head?

/-- A parsed timestamp, with the components `strftime("%Y-%m-%d")` reads. -/
structure PyDateTime where
  year : Nat
  month : Nat
  day : Nat
deriving DecidableEq

/-- Zero-padded decimal rendering of width `w`. -/
def zpad (w : Nat) (n : Nat) : String :=
  let s := toString n
  String.mk (List.replicate (w - s.length) '0') ++ s

/-- `dt.strftime("%Y-%m-%d")`: the date rendered as `YYYY-MM-DD`. -/
def strftime_ymd (dt : PyDateTime) : String :=
  zpad 4 dt.year ++ "-" ++ zpad 2 dt.month ++ "-" ++ zpad 2 dt.day

/-- The normalization `fmt_date` applies before parsing: every `+0000`
becomes `+00:00` (Python `replace` rewrites all occurrences), then a
trailing `Z` becomes `+00:00`. -/
def normalize_ts (v : String) : String :=
  let s := py_replace v "+0000" "+00:00"
  if py_endswith s "Z" then String.mk s.data.dropLast ++ "+00:00" else s

/-- `fmt_date(v, tzname)` with the external library behaviour abstracted:
`parse` models `datetime.fromisoformat` (`none` = raises `ValueError`),
`zone_lookup` models the `ZoneInfo` constructor (`none` = raises),
`as_tz` models `datetime.astimezone`, and `zoneinfo_avail` models
`ZoneInfo is not None` (the import succeeded). `try/except Exception`
around the body maps every raising path to the original string `v`. -/
def fmt_date {T : Type} (parse : String → Option PyDateTime)
    (zone_lookup : String → Option T) (as_tz : PyDateTime → T → PyDateTime)
    (zoneinfo_avail : Bool) (v : String) (tzname : String) : String :=
  if v = "" then ""
  else
    match parse (normalize_ts v) with
    | none => v
    | some dt =>
      if tzname != "" && zoneinfo_avail then
        match zone_lookup tzname with
        | none => v
        | some z => strftime_ymd (as_tz dt z)
      else strftime_ymd dt

/-- One insertion step of `by_type.setdefault(issue_type(it), []).append(it)`:
extend the group of key `t` in place, or append a new group at the end. -/
def add_to_group (groups : List (String × List Issue)) (t : String) (it : Issue) :
    List (String × List Issue) :=
  match groups with
  | [] => [(t, [it])]
  | (k, l) :: rest =>
    if k = t then (k, l ++ [it]) :: rest else (k, l) :: add_to_group rest t it

/-- `dict.get(t, [])` over the insertion-ordered grouping dict. -/
def groups_get (groups : List (String × List Issue)) (t : String) : List Issue :=
  match groups.find? (fun p => p.1 == t) with
  | some p => p.2
  | none => []

/-- The `by_type` grouping dict built by `build_report` (lines 143-145). -/
def by_type (issues : List Issue) : List (String × List Issue) :=
  issues.foldl (fun g it => add_to_group g (issue_type it) it) []

/-- `by_type.get(t, [])` inside `build_report`. -/
def by_type_get (issues : List Issue) (t : String) : List Issue :=
  groups_get (by_type issues) t

/-- The open records of the group of type label `t`; this is the selection
`[it for it in by_type.get(t, []) if is_open(it)]` used for the milestone
list, the RAID sections and the aggregate-root project pool. -/
def open_of_type (issues : List Issue) (t : String) : List Issue :=
  (by_type_get issues t).filter is_open

/-- `bullet_or_none(items)`. -/
def bullet_or_none (items : List String) : List String :=
  if items = [] then ["None"] else items

/-- `format_item(it, extra_bits)`: key — summary, then the truthy extras,
joined with " | " behind a "- " bullet. -/
def format_item (it : Issue) (extra_bits : List String) : String :=
  "- " ++ py_join " | "
    ((issue_key it ++ " — " ++ field_text it "summary") :: extra_bits.filter (fun b => b ≠ ""))

/-- The weekly-updates section body (lines 160-171). -/
def weekly_lines (issues : List Issue) (root : Issue) (cfg : Cfg) : List String :=
  if py_lower (issue_type root) = py_lower cfg.INITIATIVE_TYPE_NAME then
    let projects := open_of_type issues cfg.PROJECT_TYPE_NAME
    let ls := projects.filterMap (fun p =>
      let wu := field_text p cfg.WEEKLY_UPDATE_FIELD
      if wu ≠ "" then
        some ("- **" ++ issue_key p ++ " — " ++ field_text p "summary" ++ "**: " ++ wu)
      else none)
    if ls = [] then ["- None"] else ls
  else
    let wu := field_text root cfg.WEEKLY_UPDATE_FIELD
    if wu ≠ "" then ["- " ++ wu] else ["- None"]

/-- The milestone bullet list (lines 177-184), before `bullet_or_none`. -/
def milestone_lines {T : Type} (parse : String → Option PyDateTime)
    (zone_lookup : String → Option T) (as_tz : PyDateTime → T → PyDateTime)
    (zoneinfo_avail : Bool) (issues : List Issue) (cfg : Cfg) (tzname : String) :
    List String :=
  (open_of_type issues cfg.MILESTONE_TYPE_NAME).map (fun m =>
    let key := issue_key m
    let summ := field_text m "summary"
    let tgt := fmt_date parse zone_lookup as_tz zoneinfo_avail
      (field_text m cfg.MILESTONE_TARGET_END_FIELD) tzname
    let rag := field_text m cfg.MILESTONE_RAG_FIELD
    "- " ++ key ++ " — " ++ summ ++ " | Target end: " ++ (if tgt ≠ "" then tgt else "-")
      ++ " | RAG: " ++ (if rag ≠ "" then rag else "-"))

/-- The rows of one RAID `section(header, type_name, extra_cols)` call. -/
def section_rows (issues : List Issue) (cfg : Cfg) (type_name : String)
    (extra_cols : List String) : List String :=
  (open_of_type issues type_name).map (fun it =>
    let extra := extra_cols.filterMap (fun col =>
      if col = "__status" then some ("Status: " ++ issue_status_name it)
      else if col = "__assignee" then
        let who := field_text it "assignee"
        if who ≠ "" then some ("Assignee: " ++ who) else none
      else if col = "__risk_score" then
        let rs := field_text it cfg.RISK_SCORE_FIELD
        if rs ≠ "" then some ("Aristocrat risk score: " ++ rs) else none
      else
        let val := field_text it col
        if val ≠ "" then some (col ++ ": " ++ val) else none)
    format_item it extra)

/-- The lines appended by one `section` call: header, rows or `None`, blank. -/
def section_lines (issues : List Issue) (cfg : Cfg) (header : String)
    (type_name : String) (extra_cols : List String) : List String :=
  (header ++ ":") ::
    (let rows := section_rows issues cfg type_name extra_cols
     if rows = [] then ["None"] else rows) ++ [""]

/-- The report title (line 149): `f"{root_key} — {root_summary}".strip(" —")`. -/
def report_title (root : Issue) : String :=
  py_strip_chars [' ', '—'] (issue_key root ++ " — " ++ field_text root "summary")

/-- `build_report(issues, root, cfg, tzname)`: the `(title, text)` pair.
The source's two RAID branches (initiative root / leaf root) are literally
identical, so they are written once here. -/
def build_report {T : Type} (parse : String → Option PyDateTime)
    (zone_lookup : String → Option T) (as_tz : PyDateTime → T → PyDateTime)
    (zoneinfo_avail : Bool) (issues : List Issue) (root : Issue) (cfg : Cfg)
    (tzname : String) : String × String :=
  let title := report_title root
  let lines :=
    ["Weekly updates:"] ++ weekly_lines issues root cfg ++ [""]
    ++ ["Upcoming Milestones:"]
    ++ bullet_or_none (milestone_lines parse zone_lookup as_tz zoneinfo_avail issues cfg tzname)
    ++ [""]
    ++ section_lines issues cfg "Risks" cfg.INITIATIVE_RISK_TYPE_NAME
        ["__status", "__risk_score", "__assignee"]
    ++ section_lines issues cfg "Assumptions" cfg.ASSUMPTION_TYPE_NAME
        ["__status", "__assignee"]
    ++ section_lines issues cfg "Issues" cfg.ISSUE_TYPE_NAME
        ["__status", "__assignee"]
    ++ section_lines issues cfg "Decisions" cfg.DECISION_TYPE_NAME
        ["__status", "__assignee"]
    ++ section_lines issues cfg "Change requests" cfg.CHANGE_REQ_TYPE_NAME
        ["__status", "__assignee"]
  let text := "# " ++ title ++ "\n\n" ++ py_rstrip (py_join "\n" lines) ++ "\n"
  (title, text)

/-! Spec-side characterizations (written from the specification's words, to
be compared with the source-derived definitions above). -/

/-- Spec-side: the first of the listed optional attributes that is present
and non-empty, else the empty string (§4.1 "first present of ..."). -/
def first_present (l : List (Option String)) : String :=
  ((l.filterMap id).filter (fun s => s ≠ "")).headD ""

/-- Spec-side: the records qualifying for an aggregate-root weekly-updates
bullet — open records of the configured project-type with a non-empty
weekly-update field text. -/
def spec_weekly_qualifying (issues : List Issue) (cfg : Cfg) : List Issue :=
  issues.filter (fun it =>
    issue_type it == cfg.PROJECT_TYPE_NAME && is_open it
      && field_text it cfg.WEEKLY_UPDATE_FIELD != "")

/-- Spec-side: the weekly-updates bullet `- **{key} — {summary}**: {update}`. -/
def spec_weekly_bullet (cfg : Cfg) (p : Issue) : String :=
  "- **" ++ issue_key p ++ " — " ++ field_text p "summary" ++ "**: "
    ++ field_text p cfg.WEEKLY_UPDATE_FIELD

/-! Concrete fixtures used by counterexamples and witnesses. -/

/-- The default taxonomy configuration built in `main`. -/
def cfg0 : Cfg := {
  WEEKLY_UPDATE_FIELD := "customfield_weekly_update"
  MILESTONE_TYPE_NAME := "Milestone"
  MILESTONE_TARGET_END_FIELD := "duedate"
  MILESTONE_RAG_FIELD := "customfield_rag"
  INITIATIVE_RISK_TYPE_NAME := "InitiativeRisk"
  ASSUMPTION_TYPE_NAME := "Assumption"
  ISSUE_TYPE_NAME := "Issue"
  DECISION_TYPE_NAME := "Decision"
  CHANGE_REQ_TYPE_NAME := "Change req"
  PROJECT_TYPE_NAME := "Project"
  INITIATIVE_TYPE_NAME := "PMO Initiative"
  RISK_SCORE_FIELD := "customfield_riskscore" }

/-- An open record whose type differs from `cfg0.MILESTONE_TYPE_NAME` only
in letter case. -/
def mCase : Issue := {
  key := some "M-9"
  issuetype := some { name := some "MILESTONE" }
  fields := [("summary", FieldVal.scalar "Launch")] }

/-- A leaf (project-typed) root with a non-empty weekly update. -/
def c2root : Issue := {
  key := some "PRJ-7"
  issuetype := some { name := some "Project" }
  fields := [("summary", FieldVal.scalar "Sub project"),
             ("customfield_weekly_update", FieldVal.scalar "Blocked on vendor")] }

/-- A record with a parent reference. -/
def wA : Issue := {
  key := some "A"
  issuetype := some { name := some "Project" }
  parent := some { key := some "B" }
  fields := [("summary", FieldVal.scalar "child")] }

/-- A parentless record. -/
def wB : Issue := {
  key := some "B"
  issuetype := some { name := some "PMO Initiative" }
  fields := [("summary", FieldVal.scalar "top")] }

/-- A record whose status name is `Done`. -/
def dRec : Issue := {
  key := some "D-1"
  status := some { name := some "Done" } }

/-- A record with no primary status name, only a status-category name. -/
def cRec : Issue := {
  key := some "C-1"
  status := some { name := none, statusCategory := some { name := some " To Do " } } }

/-- A concrete stand-in for `datetime.fromisoformat`, succeeding on exactly
one normalized timestamp. -/
def parseW : String → Option PyDateTime := fun s =>
  if s = "2031-04-05T06:07:08+00:00" then some ⟨2031, 4, 5⟩ else none

/-- A concrete stand-in for the `ZoneInfo` constructor knowing only `UTC`. -/
def zlW : String → Option Unit := fun z =>
  if z = "UTC" then some () else none

/-- A record with object- and sequence-shaped field values. -/
def c6rec : Issue := {
  key := some "F-1"
  fields := [("assignee", FieldVal.obj { displayName := some "Alice", id := some "123" }),
             ("labels", FieldVal.arr [Elem.obj { name := some "red" }, Elem.obj {},
                                      Elem.scalar "raw"]),
             ("summary", FieldVal.scalar "Things")] }

/-- A root whose summary ends with a space (an edge character of the
`strip(" —")` set) while both key and summary are non-empty. -/
def c7bad : Issue := {
  key := some "AB-1"
  fields := [("summary", FieldVal.scalar "Phase one ")] }

/-- A root whose key and summary have no edge characters from the strip set. -/
def c7clean : Issue := {
  key := some "AB-1"
  fields := [("summary", FieldVal.scalar "Phase one")] }

/-! Helper lemmas. -/

theorem groups_get_nil (t : String) : groups_get [] t = [] := rfl

theorem groups_get_cons (k : String) (l : List Issue) (rest : List (String × List Issue))
    (t : String) :
    groups_get ((k, l) :: rest) t = if k = t then l else groups_get rest t := by
  by_cases h : k = t
  · subst h
    simp [groups_get, List.find?]
  · simp [groups_get, List.find?, beq_eq_false_iff_ne.mpr h, h]

theorem groups_get_add (g : List (String × List Issue)) (t s : String) (it : Issue) :
    groups_get (add_to_group g s it) t =
      if s = t then groups_get g t ++ [it] else groups_get g t := by
  induction g with
  | nil =>
    by_cases hst : s = t <;>
      simp [add_to_group, groups_get_cons, groups_get_nil, hst]
  | cons p rest ih =>
    obtain ⟨k, l⟩ := p
    by_cases hks : k = s
    · subst hks
      by_cases hkt : k = t <;>
        simp [add_to_group, groups_get_cons, hkt]
    · have hadd : add_to_group ((k, l) :: rest) s it = (k, l) :: add_to_group rest s it := by
        simp [add_to_group, hks]
      by_cases hkt : k = t
      · have hst : ¬ s = t := fun h => hks (hkt.trans h.symm)
        rw [hadd, groups_get_cons]
        simp [groups_get_cons, hkt, hst]
      · by_cases hst : s = t
        · subst hst
          rw [hadd, groups_get_cons]
          simp [groups_get_cons, hkt, ih]
        · rw [hadd, groups_get_cons]
          simp [groups_get_cons, hkt, hst, ih]

theorem by_type_foldl (issues : List Issue) (g : List (String × List Issue)) (t : String) :
    groups_get (issues.foldl (fun g it => add_to_group g (issue_type it) it) g) t =
      groups_get g t ++ issues.filter (fun it => issue_type it == t) := by
  induction issues generalizing g with
  | nil => simp
  | cons a l ih =>
    by_cases ha : issue_type a = t
    · simp [List.filter_cons, beq_iff_eq, ha, ih, groups_get_add, List.append_assoc]
    · simp [List.filter_cons, beq_iff_eq, ha, ih, groups_get_add]

theorem by_type_get_eq_filter (issues : List Issue) (t : String) :
    by_type_get issues t = issues.filter (fun it => issue_type it == t) := by
  simpa [groups_get, List.find?] using by_type_foldl issues [] t

theorem filter_filter_and {α : Type} (p q : α → Bool) (l : List α) :
    (l.filter p).filter q = l.filter (fun a => p a && q a) := by
  induction l with
  | nil => rfl
  | cons a l ih =>
    by_cases hp : p a <;> by_cases hq : q a <;>
      simp [List.filter_cons, hp, hq, ih]

theorem open_of_type_eq (issues : List Issue) (t : String) :
    open_of_type issues t =
      issues.filter (fun it => issue_type it == t && is_open it) := by
  rw [open_of_type, by_type_get_eq_filter, filter_filter_and]

theorem weekly_filterMap (l : List Issue) (cfg : Cfg) :
    (open_of_type l cfg.PROJECT_TYPE_NAME).filterMap (fun p =>
        let wu := field_text p cfg.WEEKLY_UPDATE_FIELD
        if wu ≠ "" then
          some ("- **" ++ issue_key p ++ " — " ++ field_text p "summary" ++ "**: " ++ wu)
        else none) =
      (spec_weekly_qualifying l cfg).map (spec_weekly_bullet cfg) := by
  rw [open_of_type_eq]
  induction l with
  | nil => rfl
  | cons a l ih =>
    by_cases h1 : (issue_type a == cfg.PROJECT_TYPE_NAME && is_open a) = true
    · by_cases h2 : field_text a cfg.WEEKLY_UPDATE_FIELD = ""
      · simp [List.filter_cons, spec_weekly_qualifying, spec_weekly_bullet, h1, h2,
          List.filterMap_cons] at ih ⊢
        simpa [spec_weekly_qualifying] using ih
      · simp [List.filter_cons, spec_weekly_qualifying, spec_weekly_bullet, h1, h2,
          List.filterMap_cons] at ih ⊢
        simpa [spec_weekly_qualifying] using ih
    · simp [List.filter_cons, spec_weekly_qualifying, spec_weekly_bullet, h1,
        List.filterMap_cons] at ih ⊢
      simpa [spec_weekly_qualifying] using ih

theorem or_falsy_eq_first_present (a b c d : Option String) :
    or_falsy a (or_falsy b (or_falsy c (or_falsy d ""))) = first_present [a, b, c, d] := by
  rcases a with _ | x <;> rcases b with _ | y <;> rcases c with _ | z <;> rcases d with _ | w <;>
    simp only [or_falsy, first_present, List.filterMap, Option.bind, id, List.filter] <;>
    (try rfl) <;>
    (repeat' split <;> simp_all [List.headD])

theorem by_key_foldl_no_match (l : List Issue) (h : String) (acc : Option Issue)
    (hne : ∀ i ∈ l, issue_key i ≠ h) :
    l.foldl (fun acc i => if issue_key i = h then some i else acc) acc = acc := by
  induction l generalizing acc with
  | nil => rfl
  | cons a l ih =>
    rw [List.foldl_cons, if_neg (hne a (List.mem_cons_self a l))]
    exact ih acc (fun i hi => hne i (List.mem_cons_of_mem a hi))

theorem by_key_foldl_unique (l : List Issue) (h : String) (r : Issue) (acc : Option Issue)
    (hnd : (l.map issue_key).Nodup) (hr : r ∈ l) (hk : issue_key r = h) :
    l.foldl (fun acc i => if issue_key i = h then some i else acc) acc = some r := by
  induction l generalizing acc with
  | nil => cases hr
  | cons a l ih =>
    have hnd' := hnd
    rw [List.map_cons, List.nodup_cons] at hnd'
    rcases List.mem_cons.mp hr with hra | hrl
    · subst hra
      rw [List.foldl_cons, if_pos hk]
      exact by_key_foldl_no_match l h (some r)
        (fun i hi hih => hnd'.1 (hk.symm ▸ hih ▸ List.mem_map_of_mem issue_key hi))
    · have hane : issue_key a ≠ h := by
        intro hah
        exact hnd'.1 ((hah.trans hk.symm) ▸ List.mem_map_of_mem issue_key hrl)
      rw [List.foldl_cons, if_neg hane]
      exact ih acc hnd'.2 hrl

theorem by_key_lookup_unique (issues : List Issue) (h : String) (r : Issue)
    (hnd : (issues.map issue_key).Nodup) (hr : r ∈ issues) (hk : issue_key r = h) :
    by_key_lookup issues h = some r := by
  rw [by_key_lookup]
  exact by_key_foldl_unique issues h r none hnd hr hk

theorem by_key_lookup_no_match (issues : List Issue) (h : String)
    (hne : ∀ i ∈ issues, issue_key i ≠ h) :
    by_key_lookup issues h = none := by
  rw [by_key_lookup]
  exact by_key_foldl_no_match issues h none hne

theorem data_eq_nil_iff (s : String) : s.data = [] ↔ s = "" := by
  constructor
  · intro h
    cases s with
    | mk d => simpa using congrArg String.mk h
  · intro h
    subst h
    rfl

theorem append_ne_empty_left (s t : String) (h : s ≠ "") : s ++ t ≠ "" := by
  intro he
  apply h
  have hd := congrArg String.data he
  rw [String.data_append] at hd
  exact (data_eq_nil_iff s).mp (List.append_eq_nil.mp hd).1

theorem filter_ne_empty_keep (b : String) (l : List String) (h : b ≠ "") :
    (b :: l).filter (fun x => x ≠ "") = b :: l.filter (fun x => x ≠ "") := by
  simp [List.filter_cons, h]

theorem py_strip_chars_no_strip (cs : List Char) (s : String)
    (h1 : ∀ c, s.data.head? = some c → cs.contains c = false)
    (h2 : ∀ c, s.data.getLast? = some c → cs.contains c = false) :
    py_strip_chars cs s = s := by
  cases s with
  | mk d =>
    cases d with
    | nil => rfl
    | cons c t =>
      have hc : cs.contains c = false := h1 c rfl
      have hc' : c ∉ cs := by simpa using hc
      have hdrop : (c :: t).dropWhile cs.contains = c :: t := by
        simp [List.dropWhile_cons, hc']
      have hne : (c :: t).reverse ≠ [] := by simp
      obtain ⟨c2, t2, hrev⟩ := List.exists_cons_of_ne_nil hne
      have hc2 : cs.contains c2 = false := by
        apply h2
        rw [← List.head?_reverse, hrev]
        rfl
      have hc2' : c2 ∉ cs := by simpa using hc2
      have hdrop2 : (c :: t).reverse.dropWhile cs.contains = (c :: t).reverse := by
        rw [hrev]
        simp [List.dropWhile_cons, hc2']
      show String.mk ((((c :: t).dropWhile cs.contains).reverse.dropWhile cs.contains).reverse) =
        String.mk (c :: t)
      rw [hdrop, hdrop2, List.reverse_reverse]

theorem determine_root_eq (issues : List Issue) (hint_key : Option String) :
    determine_root issues hint_key =
      if (hint_key.getD "" != "" && (by_key_lookup issues (hint_key.getD "")).isSome) = true
      then by_key_lookup issues (hint_key.getD "")
      else
        match issues.find? (fun it => parent_key it == "") with
        | some it => some it
        | none => issues.head? := rfl

theorem is_open_eq (i : Issue) :
    is_open i =
      !(py_lower (issue_status_name i) == "done"
        || py_lower (issue_status_name i) == "closed"
        || py_lower (issue_status_name i) == "resolved") := rfl

/-! Claim theorems. -/

/-- C1, counterexample: `mCase` is an open record whose type label matches
the configured milestone-type name case-insensitively (`"MILESTONE"` vs
`"Milestone"`), yet it is not selected into the milestone pool — the
selection uses the exact, case-preserving type label as the grouping key. -/
theorem milestone_case_sensitive_cex :
    py_lower (issue_type mCase) = py_lower cfg0.MILESTONE_TYPE_NAME ∧
    is_open mCase = true ∧
    open_of_type [mCase] cfg0.MILESTONE_TYPE_NAME = [] ∧
    milestone_lines (T := Unit) (fun _ => none) (fun _ => none) (fun dt _ => dt) true
      [mCase] cfg0 "" = [] := by
  refine ⟨by decide, by decide, by decide, by decide⟩

/-- C1, amended: a record is selected into the Upcoming Milestones list, a
RAID section, or the aggregate-root weekly-updates project pool — all of
which select through `open_of_type` — exactly when its trimmed type label
equals the corresponding configured type name case-SENSITIVELY and the
record is open; selection order preserves input order. (Only the root's
type is compared case-insensitively, against the initiative-type.) -/
theorem selection_exact_type_match (issues : List Issue) (t : String) :
    open_of_type issues t =
      issues.filter (fun it => issue_type it == t && is_open it) :=
  open_of_type_eq issues t

/-- C2: when the root's type matches the configured initiative-type
case-insensitively, the weekly-updates section holds exactly one bullet
`- **{key} — {summary}**: {update}` per open record of the configured
project-type (exact, trimmed type-label match, per the grouping) with a
non-empty weekly-update text, and the single line `- None` when no record
qualifies; for a leaf root it is the single bullet `- {update}` with the
root's own weekly-update text, or `- None` when that text is empty. -/
theorem weekly_updates_spec (issues : List Issue) (root : Issue) (cfg : Cfg) :
    (py_lower (issue_type root) = py_lower cfg.INITIATIVE_TYPE_NAME →
      weekly_lines issues root cfg =
        (if spec_weekly_qualifying issues cfg = [] then ["- None"]
         else (spec_weekly_qualifying issues cfg).map (spec_weekly_bullet cfg))) ∧
    (py_lower (issue_type root) ≠ py_lower cfg.INITIATIVE_TYPE_NAME →
      weekly_lines issues root cfg =
        (if field_text root cfg.WEEKLY_UPDATE_FIELD = "" then ["- None"]
         else ["- " ++ field_text root cfg.WEEKLY_UPDATE_FIELD])) := by
  constructor
  · intro h
    simp only [weekly_lines]
    rw [if_pos h, weekly_filterMap issues cfg]
    by_cases hq : spec_weekly_qualifying issues cfg = []
    · simp [hq]
    · simp [hq, List.map_eq_nil_iff]
  · intro h
    simp only [weekly_lines]
    rw [if_neg h]
    by_cases hw : field_text root cfg.WEEKLY_UPDATE_FIELD = ""
    · simp [hw]
    · simp [hw]

/-- C2, witness: a leaf root with weekly update "Blocked on vendor" yields
the single bullet. -/
theorem weekly_updates_spec_witness :
    weekly_lines [] c2root cfg0 = ["- Blocked on vendor"] :=
  ((weekly_updates_spec [] c2root cfg0).2 (by decide)).trans (by decide)

/-- C8: the renderer is a pure function — two invocations of
`build_report` with identical arguments produce identical `(title, body)`
pairs (the embedding exhibits the source as a deterministic transformation
of its inputs, with no ambient state). -/
theorem build_report_deterministic {T : Type} (parse : String → Option PyDateTime)
    (zone_lookup : String → Option T) (as_tz : PyDateTime → T → PyDateTime)
    (zoneinfo_avail : Bool) (issues : List Issue) (root : Issue) (cfg : Cfg)
    (tzname : String) :
    build_report parse zone_lookup as_tz zoneinfo_avail issues root cfg tzname =
      build_report parse zone_lookup as_tz zoneinfo_avail issues root cfg tzname :=
  rfl

/-- C3: `determine_root` returns `none` exactly on empty input; a non-empty
hint that equals the key of some record (keys being unique) returns that
record regardless of parent structure; otherwise it returns the first
parentless record in input order, else the first record. -/
theorem determine_root_spec (issues : List Issue) (hint_key : Option String) :
    (determine_root issues hint_key = none ↔ issues = []) ∧
    (∀ h r, hint_key = some h → h ≠ "" → (issues.map issue_key).Nodup →
      r ∈ issues → issue_key r = h → determine_root issues hint_key = some r) ∧
    ((hint_key.getD "" = "" ∨ ∀ r ∈ issues, issue_key r ≠ hint_key.getD "") →
      (∀ p, issues.find? (fun it => parent_key it == "") = some p →
        determine_root issues hint_key = some p) ∧
      (issues.find? (fun it => parent_key it == "") = none →
        determine_root issues hint_key = issues.head?)) := by
  refine ⟨?_, ?_, ?_⟩
  · constructor
    · intro hres
      by_contra hne
      obtain ⟨a, l, rfl⟩ := List.exists_cons_of_ne_nil hne
      rw [determine_root_eq] at hres
      cases hcond : (hint_key.getD "" != "" && (by_key_lookup (a :: l) (hint_key.getD "")).isSome) with
      | true =>
        rw [if_pos hcond] at hres
        have hsome := ((Bool.and_eq_true _ _).mp hcond).2
        rw [hres] at hsome
        simp at hsome
      | false =>
        rw [if_neg (by simp [hcond])] at hres
        cases hfind : (a :: l).find? (fun it => parent_key it == "") with
        | some p => rw [hfind] at hres; simp at hres
        | none => rw [hfind] at hres; simp at hres
    · intro hres
      subst hres
      simp [determine_root_eq, by_key_lookup, List.find?]
  · intro h r hh hne hnd hr hk
    subst hh
    rw [determine_root_eq]
    simp only [Option.getD_some]
    rw [by_key_lookup_unique issues h r hnd hr hk]
    simp [hne]
  · intro hmiss
    have hcond :
        (hint_key.getD "" != "" && (by_key_lookup issues (hint_key.getD "")).isSome) = false := by
      rcases hmiss with hempty | hnone
      · simp [hempty]
      · have : by_key_lookup issues (hint_key.getD "") = none :=
          by_key_lookup_no_match issues (hint_key.getD "") hnone
        simp [this]
    constructor
    · intro p hp
      rw [determine_root_eq, if_neg (by simp [hcond]), hp]
    · intro hp
      rw [determine_root_eq, if_neg (by simp [hcond]), hp]

/-- C3, witness: an explicit hint beats parent structure; with no hint the
first parentless record wins; empty input yields no root. -/
theorem determine_root_spec_witness :
    determine_root [wA, wB] (some "A") = some wA ∧
    determine_root [wA, wB] none = some wB ∧
    determine_root ([] : List Issue) none = none := by
  refine ⟨?_, ?_, ?_⟩
  · exact (determine_root_spec [wA, wB] (some "A")).2.1 "A" wA rfl (by decide)
      (by decide) (by decide) (by decide)
  · exact ((determine_root_spec [wA, wB] none).2.2 (Or.inl rfl)).1 wB (by decide)
  · exact (determine_root_spec [] none).1.mpr rfl

/-- C4: `is_open` is `false` exactly when the lower-cased status name is
`done`, `closed` or `resolved` (any other, including the empty string, is
open), and `issue_status_name` is the trimmed primary status name, falling
back to the status-category name, else the empty string. -/
theorem status_open_spec (i : Issue) :
    (is_open i = false ↔
      (py_lower (issue_status_name i) = "done" ∨
       py_lower (issue_status_name i) = "closed" ∨
       py_lower (issue_status_name i) = "resolved")) ∧
    (issue_status_name i = "" → is_open i = true) ∧
    (∀ st n, i.status = some st → st.name = some n → n ≠ "" →
      issue_status_name i = py_strip n) ∧
    (∀ st c n, i.status = some st → (st.name = none ∨ st.name = some "") →
      st.statusCategory = some c → c.name = some n → n ≠ "" →
      issue_status_name i = py_strip n) ∧
    (i.status = none → issue_status_name i = "") ∧
    (∀ st, i.status = some st → (st.name = none ∨ st.name = some "") →
      (st.statusCategory = none ∨
       ∃ c, st.statusCategory = some c ∧ (c.name = none ∨ c.name = some "")) →
      issue_status_name i = "") := by
  refine ⟨?_, ?_, ?_, ?_, ?_, ?_⟩
  · rw [is_open_eq]
    simp only [Bool.not_eq_false', Bool.or_eq_true, beq_iff_eq]
    tauto
  · intro hempty
    rw [is_open_eq, hempty]
    decide
  · intro st n hst hn hne
    simp [issue_status_name, hst, hn, or_falsy, hne]
  · intro st c n hst hname hcat hn hne
    rcases hname with hname | hname <;>
      simp [issue_status_name, hst, hname, hcat, hn, or_falsy, hne]
  · intro hst
    simp [issue_status_name, hst]
  · intro st hst hname hcat
    rcases hcat with hcat | ⟨c, hcat, hcname⟩
    · rcases hname with hname | hname <;>
        · simp [issue_status_name, hst, hname, hcat, or_falsy]
          decide
    · rcases hname with hname | hname <;> rcases hcname with hcname | hcname <;>
        · simp [issue_status_name, hst, hname, hcat, hcname, or_falsy]
          decide

/-- C4, witness: a `Done` status is closed; a record with only a
status-category name gets that name, trimmed. -/
theorem status_open_spec_witness :
    is_open dRec = false ∧ issue_status_name cRec = "To Do" := by
  constructor
  · exact (status_open_spec dRec).1.mpr (Or.inl (by decide))
  · exact ((status_open_spec cRec).2.2.2.1
      { name := none, statusCategory := some { name := some " To Do " } }
      { name := some " To Do " } " To Do " rfl (Or.inl rfl) rfl rfl (by decide)).trans
      (by decide)

/-- C5: `fmt_date` is total and never raises by construction; the empty
input maps to the empty string for every time zone; a trailing `Z` and a
`+0000` offset are normalized to a colon-separated `+00:00` offset before
parsing; a successfully parsed timestamp renders as `YYYY-MM-DD`
(`strftime_ymd`, zero-padded 4-2-2); and a non-empty input that fails to
parse is returned verbatim — never the empty string. -/
theorem fmt_date_spec {T : Type} (parse : String → Option PyDateTime)
    (zl : String → Option T) (az : PyDateTime → T → PyDateTime) (zav : Bool)
    (tzname v : String) :
    (fmt_date parse zl az zav "" tzname = "") ∧
    (normalize_ts "2031-04-05T06:07:08Z" = "2031-04-05T06:07:08+00:00") ∧
    (normalize_ts "2031-04-05T06:07:08+0000" = "2031-04-05T06:07:08+00:00") ∧
    (v ≠ "" → ∀ dt, parse (normalize_ts v) = some dt → (tzname = "" ∨ zav = false) →
      fmt_date parse zl az zav v tzname = strftime_ymd dt) ∧
    (v ≠ "" → ∀ dt z, parse (normalize_ts v) = some dt → tzname ≠ "" → zav = true →
      zl tzname = some z →
      fmt_date parse zl az zav v tzname = strftime_ymd (az dt z)) ∧
    (v ≠ "" → parse (normalize_ts v) = none →
      fmt_date parse zl az zav v tzname = v ∧ fmt_date parse zl az zav v tzname ≠ "") := by
  refine ⟨rfl, by decide, by decide, ?_, ?_, ?_⟩
  · intro hv dt hp htz
    rw [fmt_date, if_neg hv, hp]
    rcases htz with htz | htz <;> simp [htz]
  · intro hv dt z hp htz hav hz
    subst hav
    have hb : (tzname != "" && true) = true := by simp [htz]
    simp [fmt_date, hv, hp, hb, hz]
  · intro hv hp
    rw [fmt_date, if_neg hv, hp]
    exact ⟨rfl, hv⟩

/-- C5, witness: a `Z`-suffixed timestamp parses after normalization and
renders as `YYYY-MM-DD`; a malformed input comes back verbatim. -/
theorem fmt_date_spec_witness :
    fmt_date parseW zlW (fun dt _ => dt) true "2031-04-05T06:07:08Z" "" = "2031-04-05" ∧
    fmt_date parseW zlW (fun dt _ => dt) true "not-a-date" "UTC" = "not-a-date" := by
  constructor
  · exact ((fmt_date_spec parseW zlW (fun dt _ => dt) true "" "2031-04-05T06:07:08Z").2.2.2.1
      (by decide) ⟨2031, 4, 5⟩ (by decide) (Or.inl rfl)).trans (by decide)
  · exact ((fmt_date_spec parseW zlW (fun dt _ => dt) true "UTC" "not-a-date").2.2.2.2.2
      (by decide) (by decide)).1

/-- C9: for a timestamp that parses successfully and a non-empty time-zone
name the `ZoneInfo` lookup does not know (with zone support available),
`fmt_date` returns the raw input verbatim — the zone failure is absorbed by
the same fallback as a parse failure. -/
theorem fmt_date_unknown_zone {T : Type} (parse : String → Option PyDateTime)
    (zl : String → Option T) (az : PyDateTime → T → PyDateTime) (v tzname : String)
    (dt : PyDateTime) :
    v ≠ "" → parse (normalize_ts v) = some dt → tzname ≠ "" → zl tzname = none →
    fmt_date parse zl az true v tzname = v := by
  intro hv hp htz hz
  have hb : (tzname != "" && true) = true := by simp [htz]
  simp [fmt_date, hv, hp, hb, hz]

/-- C9, witness: a well-formed timestamp with the unknown zone
`Mars/Olympus` comes back raw, not rendered. -/
theorem fmt_date_unknown_zone_witness :
    fmt_date parseW zlW (fun dt _ => dt) true "2031-04-05T06:07:08Z" "Mars/Olympus" =
      "2031-04-05T06:07:08Z" :=
  fmt_date_unknown_zone parseW zlW (fun dt _ => dt) "2031-04-05T06:07:08Z" "Mars/Olympus"
    ⟨2031, 4, 5⟩ (by decide) (by decide) (by decide) (by decide)

/-- C6: `field_text` is total by construction (a `String` for every field
shape, never raising): an absent/null value maps to `""`; a structured
object maps to the first present non-empty of `displayName`, `name`,
`value`, `id`, else `""`; a sequence maps to the non-empty per-element
extractions (`name`, else `value`, else `displayName`, else `key`, else
empty; scalar elements by their string form) joined with `", "`; a scalar
maps to its string form; and `field` looks the name up verbatim first,
then lower-cased. -/
theorem field_text_total_spec (i : Issue) (k : String) :
    (field i k = FieldVal.null → field_text i k = "") ∧
    (∀ s, field i k = FieldVal.scalar s → field_text i k = s) ∧
    (∀ o, field i k = FieldVal.obj o →
      field_text i k = first_present [o.displayName, o.name, o.value, o.id]) ∧
    (∀ es, field i k = FieldVal.arr es →
      field_text i k = py_join ", " ((es.map (fun e =>
        match e with
        | Elem.obj o => first_present [o.name, o.value, o.displayName, o.key]
        | Elem.scalar s => s)).filter (fun p => p ≠ ""))) ∧
    (∀ v, fields_lookup i.fields k = some v → field i k = v) ∧
    (fields_lookup i.fields k = none →
      field i k = (fields_lookup i.fields (py_lower k)).getD FieldVal.null) := by
  refine ⟨?_, ?_, ?_, ?_, ?_, ?_⟩
  · intro h
    rw [field_text, h]
  · intro s h
    rw [field_text, h]
  · intro o h
    rw [field_text, h]
    exact or_falsy_eq_first_present o.displayName o.name o.value o.id
  · intro es h
    rw [field_text, h]
    have hmap : ∀ e : Elem,
        (match e with
         | Elem.obj o => or_falsy o.name (or_falsy o.value (or_falsy o.displayName (or_falsy o.key "")))
         | Elem.scalar s => s) =
        (match e with
         | Elem.obj o => first_present [o.name, o.value, o.displayName, o.key]
         | Elem.scalar s => s) := by
      intro e
      cases e with
      | obj o => exact or_falsy_eq_first_present o.name o.value o.displayName o.key
      | scalar s => rfl
    simp only [hmap]
  · intro v h
    rw [field, h]
  · intro h
    rw [field, h]
    cases hl : fields_lookup i.fields (py_lower k) <;> simp [hl]

/-- C6, witness: the object, sequence, scalar, absent and lower-cased-name
shapes evaluated on a concrete record. -/
theorem field_text_total_spec_witness :
    field_text c6rec "assignee" = "Alice" ∧
    field_text c6rec "labels" = "red, raw" ∧
    field_text c6rec "summary" = "Things" ∧
    field_text c6rec "missing" = "" ∧
    field_text c6rec "SUMMARY" = "Things" := by
  refine ⟨?_, ?_, ?_, ?_, ?_⟩
  · exact (((field_text_total_spec c6rec "assignee").2.2.1
      { displayName := some "Alice", id := some "123" } rfl)).trans (by decide)
  · exact (((field_text_total_spec c6rec "labels").2.2.2.1
      [Elem.obj { name := some "red" }, Elem.obj {}, Elem.scalar "raw"] rfl)).trans (by decide)
  · exact ((field_text_total_spec c6rec "summary").2.1 "Things" rfl)
  · exact ((field_text_total_spec c6rec "missing").1 rfl)
  · exact ((field_text_total_spec c6rec "SUMMARY").2.1 "Things" (by decide))

/-- C7, counterexample: `c7bad` has a non-empty key and a non-empty
summary, yet the title is NOT exactly `"{key} — {summary}"` — the trailing
space of the summary is stripped, because `strip(" —")` removes every edge
character of the set {space, em dash}, not only the artifact produced by
an empty side. -/
theorem report_title_strip_cex :
    issue_key c7bad ≠ "" ∧
    field_text c7bad "summary" ≠ "" ∧
    report_title c7bad ≠ issue_key c7bad ++ " — " ++ field_text c7bad "summary" := by
  refine ⟨by decide, by decide, by decide⟩

/-- C7, amended: the title is `"{key} — {summary}"` with characters of the
set {space, em dash} stripped from both ends; in particular it equals
`"{key} — {summary}"` exactly whenever the key and summary are non-empty,
the key does not start with a space or em dash, and the summary does not
end with a space or em dash (not merely when both sides are non-empty). -/
theorem report_title_amended (root : Issue) :
    issue_key root ≠ "" → field_text root "summary" ≠ "" →
    (∀ c, (issue_key root).data.head? = some c → c ≠ ' ' ∧ c ≠ '—') →
    (∀ c, (field_text root "summary").data.getLast? = some c → c ≠ ' ' ∧ c ≠ '—') →
    report_title root = issue_key root ++ " — " ++ field_text root "summary" := by
  intro hk hm hhead hlast
  rw [report_title]
  apply py_strip_chars_no_strip
  · intro c hc
    have hkd : (issue_key root).data ≠ [] := fun hnil => hk ((data_eq_nil_iff _).mp hnil)
    obtain ⟨c0, t0, h0⟩ := List.exists_cons_of_ne_nil hkd
    have hc0 := hhead c0 (by rw [h0]; rfl)
    have hdata : (issue_key root ++ " — " ++ field_text root "summary").data =
        c0 :: (t0 ++ (" — " ++ field_text root "summary").data) := by
      rw [String.data_append, String.data_append, h0]
      simp [String.data_append]
    rw [hdata] at hc
    have hcc : c = c0 := by
      have := hc
      simp at this
      exact this.symm
    subst hcc
    simp [hc0.1, hc0.2]
  · intro c hc
    have hmd : (field_text root "summary").data ≠ [] :=
      fun hnil => hm ((data_eq_nil_iff _).mp hnil)
    have hdata : (issue_key root ++ " — " ++ field_text root "summary").data =
        (issue_key root ++ " — ").data ++ (field_text root "summary").data := by
      rw [String.data_append]
    rw [hdata, List.getLast?_append_of_ne_nil _ hmd] at hc
    have hc0 := hlast c hc
    simp [hc0.1, hc0.2]

/-- C7, witness: with clean edges and both sides non-empty, the title is
exactly `"{key} — {summary}"`. -/
theorem report_title_amended_witness :
    report_title c7clean = "AB-1 — Phase one" := by
  have h := report_title_amended c7clean (by decide) (by decide)
    (by
      intro c hc
      have hcc : c = 'A' := by
        have : some 'A' = some c := hc
        cases this
        rfl
      subst hcc
      exact ⟨by decide, by decide⟩)
    (by
      intro c hc
      have hcc : c = 'e' := by
        have : some 'e' = some c := hc
        cases this
        rfl
      subst hcc
      exact ⟨by decide, by decide⟩)
  exact h.trans (by decide)

/-- C10: in every RAID-section row, the `Status: {statusName}` extra is
unconditionally present (even an empty status name yields `"Status: "`),
while the `Assignee: ...` extra — and, in the Risks column set, the
`Aristocrat risk score: ...` extra — appear only when their text is
non-empty. -/
theorem raid_section_extras_spec (issues : List Issue) (cfg : Cfg) (t : String) :
    (section_rows issues cfg t ["__status", "__risk_score", "__assignee"] =
      (open_of_type issues t).map (fun it =>
        "- " ++ py_join " | "
          ((issue_key it ++ " — " ++ field_text it "summary") ::
           ("Status: " ++ issue_status_name it) ::
           ((if field_text it cfg.RISK_SCORE_FIELD = "" then []
             else ["Aristocrat risk score: " ++ field_text it cfg.RISK_SCORE_FIELD]) ++
            (if field_text it "assignee" = "" then []
             else ["Assignee: " ++ field_text it "assignee"]))))) ∧
    (section_rows issues cfg t ["__status", "__assignee"] =
      (open_of_type issues t).map (fun it =>
        "- " ++ py_join " | "
          ((issue_key it ++ " — " ++ field_text it "summary") ::
           ("Status: " ++ issue_status_name it) ::
           (if field_text it "assignee" = "" then []
            else ["Assignee: " ++ field_text it "assignee"])))) := by
  have hstat : ∀ it : Issue, ("Status: " ++ issue_status_name it) ≠ "" :=
    fun it => append_ne_empty_left "Status: " (issue_status_name it) (by decide)
  constructor
  · rw [section_rows]
    apply List.map_congr_left
    intro it _
    have hcols : (["__status", "__risk_score", "__assignee"] : List String).filterMap
        (fun col =>
          if col = "__status" then some ("Status: " ++ issue_status_name it)
          else if col = "__assignee" then
            let who := field_text it "assignee"
            if who ≠ "" then some ("Assignee: " ++ who) else none
          else if col = "__risk_score" then
            let rs := field_text it cfg.RISK_SCORE_FIELD
            if rs ≠ "" then some ("Aristocrat risk score: " ++ rs) else none
          else
            let val := field_text it col
            if val ≠ "" then some (col ++ ": " ++ val) else none) =
        ("Status: " ++ issue_status_name it) ::
          ((if field_text it cfg.RISK_SCORE_FIELD = "" then []
            else ["Aristocrat risk score: " ++ field_text it cfg.RISK_SCORE_FIELD]) ++
           (if field_text it "assignee" = "" then []
            else ["Assignee: " ++ field_text it "assignee"])) := by
      by_cases hrs : field_text it cfg.RISK_SCORE_FIELD = "" <;>
        by_cases hwho : field_text it "assignee" = "" <;>
          simp [List.filterMap_cons, hrs, hwho]
    rw [hcols, format_item]
    congr 1
    rw [filter_ne_empty_keep _ _ (hstat it)]
    by_cases hrs : field_text it cfg.RISK_SCORE_FIELD = "" <;>
      by_cases hwho : field_text it "assignee" = "" <;>
        simp [hrs, hwho, List.filter_cons,
          append_ne_empty_left "Aristocrat risk score: " _ (by decide),
          append_ne_empty_left "Assignee: " _ (by decide)]
  · rw [section_rows]
    apply List.map_congr_left
    intro it _
    have hcols : (["__status", "__assignee"] : List String).filterMap
        (fun col =>
          if col = "__status" then some ("Status: " ++ issue_status_name it)
          else if col = "__assignee" then
            let who := field_text it "assignee"
            if who ≠ "" then some ("Assignee: " ++ who) else none
          else if col = "__risk_score" then
            let rs := field_text it cfg.RISK_SCORE_FIELD
            if rs ≠ "" then some ("Aristocrat risk score: " ++ rs) else none
          else
            let val := field_text it col
            if val ≠ "" then some (col ++ ": " ++ val) else none) =
        ("Status: " ++ issue_status_name it) ::
          (if field_text it "assignee" = "" then []
           else ["Assignee: " ++ field_text it "assignee"]) := by
      by_cases hwho : field_text it "assignee" = "" <;>
        simp [List.filterMap_cons, hwho]
    rw [hcols, format_item]
    congr 1
    rw [filter_ne_empty_keep _ _ (hstat it)]
    by_cases hwho : field_text it "assignee" = "" <;>
      simp [hwho, List.filter_cons,
        append_ne_empty_left "Assignee: " _ (by decide)]

end PMO
